import Mathlib

/-!
Shallow embedding of the hue routing and rendering dispatcher:
the framework-agnostic router in `hue/router.py`, the Django-specific
router in `hue_django/router.py`, and the Django URL binder / dispatcher
in `hue_django/views.py`.

Python values that the routing layer inspects only shallowly (handler
return values, decoded JSON documents, validated body values) are modelled
by small inductive types carrying exactly the observations the code makes
(a `status_code` attribute flag, an emptiness flag, and so on). External
collaborators excluded by the spec (the htmy renderer, the `json` module,
the pydantic validation library, Django's CSRF machinery) are modelled as
explicit function parameters or spec-modelled definitions, each marked in
its doc comment.
-/

namespace Hue

/-- Render-unit tree: a minimal component model. `text` is a leaf and
`div` is the `html.div` element with an optional `id` attribute, the only
element the routing layer itself constructs (in `HueResponse.htmy`). -/
inductive Html where
  | text (s : String)
  | div (child : Html) (idAttr : Option String)
  deriving Repr, DecidableEq

/-- Default HTTP status code for successful responses
(`DEFAULT_STATUS_CODE = HTTPStatus.OK` in `hue/router.py`). -/
def DEFAULT_STATUS_CODE : Nat := 200

/-- Model of the `HueResponse` dataclass in `hue/router.py`: a structured
response wrapping a component with an optional target ID and a status code
(default 200). -/
structure HueResponse where
  component : Html
  target : Option String := none
  status_code : Nat := DEFAULT_STATUS_CODE
  deriving Repr, DecidableEq

/-- Python truthiness of the optional `target` string: `None` and the empty
string are falsy, every other string is truthy. -/
def optStrTruthy : Option String → Bool
  | none => false
  | some s => !s.isEmpty

/-- Model of `HueResponse.htmy` (`hue/router.py` lines 47-51): wrap the
component in a div carrying the target as its id when `self.target` is
truthy (the source tests `if self.target:`), otherwise return the
component unchanged. -/
def HueResponse.htmy (r : HueResponse) : Html :=
  if optStrTruthy r.target then Html.div r.component r.target else r.component

/-- Reading of the spec sentence for the structured response, stated from
the spec words for comparison with `HueResponse.htmy`: wrap in a div tagged
with the target as identifier whenever the target is present (an
`Option.isSome` test), and leave the component unwrapped only when the
target is absent. -/
def specHtmy (r : HueResponse) : Html :=
  match r.target with
  | some t => Html.div r.component (some t)
  | none => r.component

/-- Modelled from the spec: the external renderer contract
`render(tree, context) -> string` (the htmy renderer is an external
collaborator, not code of this repository). A leaf renders as its text and
a div element renders as the tag, with the id attribute when present,
around its rendered child. -/
def renderHtml : Html → String
  | .text s => s
  | .div c none => "<div>" ++ renderHtml c ++ "</div>"
  | .div c (some i) => "<div id=" ++ i ++ ">" ++ renderHtml c ++ "</div>"

/-- A handler return value that is not a `HueResponse`: an arbitrary Python
object, of which the view wrapper observes only whether it exposes a
`status_code` attribute (`hasattr(view_func_result, "status_code")`) and
which otherwise denotes a render-unit. -/
structure OtherValue where
  has_status_code : Bool
  asComponent : Html
  deriving Repr, DecidableEq

/-- A view function result (`ViewResult` alias in `hue/router.py`): either
the structured `HueResponse` or any other value. -/
inductive ViewResult where
  | hue (r : HueResponse)
  | other (v : OtherValue)
  deriving Repr, DecidableEq

/-- Model of the `RawResponse` dataclass in `hue/router.py`: wrapper for
passing through raw framework responses untouched. -/
structure RawResponse where
  response : OtherValue
  deriving Repr, DecidableEq

/-- Result of a wrapped view (`WrappedViewResult` alias in `hue/router.py`):
either a rendered HTML string with a status code, or a `RawResponse`
pass-through. -/
inductive WrappedViewResult where
  | rendered (html : String) (status_code : Nat)
  | raw (r : RawResponse)
  deriving Repr, DecidableEq

/-- The result-interpretation step of `wrapped_view` (`hue/router.py` lines
329-348): a result with a `status_code` attribute that is not a
`HueResponse` is passed through as a `RawResponse`; a `HueResponse`
contributes its own status code and is rendered through its `htmy` method;
any other result is rendered as the render-unit itself with the default
status code. -/
def interpretResult (result : ViewResult) : WrappedViewResult :=
  match result with
  | .other v =>
    if v.has_status_code then
      .raw ⟨v⟩
    else
      .rendered (renderHtml v.asComponent) DEFAULT_STATUS_CODE
  | .hue r => .rendered (renderHtml r.htmy) r.status_code

/-- Model of an HTTP request as seen by this layer. `headers = none` models
a request object whose `headers` attribute is missing or is not dict-like
(has no `get` method); otherwise the association list models the header
mapping (a Python dict, so keys are looked up by first match). The
remaining fields model the framework accessors `request.method`,
`request.content_type`, the raw body and the parsed form data. -/
structure Request where
  headers : Option (List (String × String)) := some []
  method : String := "GET"
  content_type : String := ""
  body : String := ""
  form_data : List (String × String) := []
  deriving Repr, DecidableEq

/-- Model of `Router._is_ajax_request` (`hue/router.py` lines 173-191):
true iff the dict-like header container maps `X-Requested-With` to
`XMLHttpRequest` or maps `X-Alpine-Request` to the string `true`; false
when the header container is missing or not dict-like. -/
def isAjaxRequest (req : Request) : Bool :=
  match req.headers with
  | none => false
  | some headers =>
    (headers.lookup "X-Requested-With" == some "XMLHttpRequest")
    || (headers.lookup "X-Alpine-Request" == some "true")

/-- A decoded JSON document, as produced by the external `json` library:
kept abstract apart from the empty object that an empty body decodes to. -/
inductive JsonRepr where
  | emptyObj
  | value (payload : String)
  deriving Repr, DecidableEq

/-- A decoded Python body datum handed to the validation library: either a
JSON document or the form-data dictionary. -/
inductive PyData where
  | fromJson (j : JsonRepr)
  | fromForm (d : List (String × String))
  deriving Repr, DecidableEq

/-- Modelled from the spec: an opaque value of a handler's declared body
type, as produced by the external validation library. -/
structure BodyValue where
  tag : String
  deriving Repr, DecidableEq

/-- One structured field error, mirroring the shape of the entries of the
`errors` list carried by `BodyValidationError` (`hue/exceptions.py`). -/
structure FieldError where
  type : String
  msg : String
  deriving Repr, DecidableEq

/-- The two exception kinds raised by this layer: `AJAXRequiredError` and
`BodyValidationError` with its structured error list (`hue/exceptions.py`). -/
inductive HueError where
  | ajaxRequired
  | bodyValidation (errors : List FieldError)
  deriving Repr, DecidableEq

/-- Substring containment, modelling Python's `needle in haystack` on
strings. -/
def containsSubstr (haystack needle : String) : Bool :=
  haystack.toList.tails.any (fun suffix => needle.toList.isPrefixOf suffix)

/-- Modelled from the spec: the validation behavior of the external
validation library for a handler's declared body type
(`TypeAdapter(body_type).validate_python`): validates and coerces the
decoded data, producing either a value of the declared type or the list of
field errors. -/
def BodyTypeSpec : Type := PyData → Except (List FieldError) BodyValue

/-- Model of `Router._parse_body` (`hue/router.py` lines 251-283). When the
content type contains `application/json`, the raw body is decoded by the
external JSON decoder `jsonLoads` (an empty body decodes to the empty
object without consulting the decoder), and a decode error raises
`BodyValidationError` with a single `json_invalid` entry; any other content
type selects the form data. The decoded data is then validated against the
declared type, a validation failure raising `BodyValidationError` with the
validation library's full error list. -/
def parseBody (jsonLoads : String → Except String JsonRepr)
    (validate : BodyTypeSpec) (req : Request) : Except HueError BodyValue :=
  match
    (if containsSubstr req.content_type "application/json" then
      match (if req.body.isEmpty then Except.ok JsonRepr.emptyObj else jsonLoads req.body) with
      | .error e => .error (HueError.bodyValidation [⟨"json_invalid", e⟩])
      | .ok document => .ok (PyData.fromJson document)
    else
      .ok (PyData.fromForm req.form_data) : Except HueError PyData) with
  | .error e => .error e
  | .ok data =>
    match validate data with
    | .ok v => .ok v
    | .error errs => .error (HueError.bodyValidation errs)

/-- Model of `HueContext`: the per-request context handed to handlers,
holding the request and the framework-supplied CSRF token. -/
structure HueContext where
  request : Request
  csrf_token : String
  deriving Repr, DecidableEq

/-- A handler (view function) as registered by the user: the validation
behavior of its declared `body` parameter type when one is present
(`get_type_hints(view_func).get("body")` in `_wrap_view`), and its result
as a function of the request, the context and the parsed body. -/
structure Handler where
  body_type : Option BodyTypeSpec := none
  run : Request → HueContext → Option BodyValue → ViewResult

/-- The closure produced by `Router._wrap_view`: it captures the view
function and the `require_ajax` flag; its behavior is `runWrappedView`. -/
structure WrappedView where
  view_func : Handler
  require_ajax : Bool

/-- Model of `wrapped_view` (`hue/router.py` lines 309-348): enforce the
AJAX requirement first, then parse the typed body when the handler declares
one, then build the per-request context, invoke the handler and interpret
its result with `interpretResult`. A returned `Except.error` models a
raised exception. `jsonLoads` is the external JSON decoder and `csrfToken`
the framework CSRF hook reached through `_get_context_args`. -/
def runWrappedView (jsonLoads : String → Except String JsonRepr)
    (csrfToken : Request → String) (w : WrappedView) (req : Request) :
    Except HueError WrappedViewResult :=
  if w.require_ajax && !isAjaxRequest req then
    .error .ajaxRequired
  else
    match
      (match w.view_func.body_type with
       | none => Except.ok none
       | some bt =>
         match parseBody jsonLoads bt req with
         | .ok v => .ok (some v)
         | .error e => .error e) with
    | .error e => .error e
    | .ok parsedBody =>
      let context : HueContext := ⟨req, csrfToken req⟩
      .ok (interpretResult (w.view_func.run req context parsedBody))

/-- Model of Python's `str.upper()` (on the ASCII method names this layer
uppercases), as a character-wise map. -/
def strUpper (s : String) : String :=
  (s.toList.map Char.toUpper).asString

/-- Model of Python's `str.lower()` (on the ASCII handler names this layer
lowercases), as a character-wise map. -/
def strLower (s : String) : String :=
  (s.toList.map Char.toLower).asString

/-- Model of `Router._normalize_path` (`hue/router.py` lines 133-139):
`path.lstrip("/")` strips every leading slash, so the root path `/`
becomes the empty string; trailing slashes are preserved. -/
def normalizePath (path : String) : String :=
  (path.toList.dropWhile (fun c => c == '/')).asString

/-- Python's word character class (the regex `\w`) restricted to ASCII:
letters, digits and the underscore. -/
def isWordChar (c : Char) : Bool :=
  c.isAlphanum || c == '_'

/-- One attempted match of the Django parameter pattern `<(\w+):(\w+)>` at
the head of the character list, as the regex engine would attempt it at one
scan position: on success, the two capture groups and the characters
following the matched text. The two `\w+` groups are maximal nonempty runs
of word characters (greedy matching; no backtracking can help because the
class excludes the colon and the closing bracket). -/
def matchParamAt : List Char → Option (List Char × List Char × List Char)
  | [] => none
  | c :: cs =>
    if c = '<' then
      let ty := cs.takeWhile isWordChar
      if ty = [] then none
      else
        match cs.dropWhile isWordChar with
        | ':' :: rest2 =>
          let nm := rest2.takeWhile isWordChar
          if nm = [] then none
          else
            match rest2.dropWhile isWordChar with
            | '>' :: rest4 => some (ty, nm, rest4)
            | _ => none
        | _ => none
    else none

theorem matchParamAt_length : ∀ {l : List Char} {ty nm rest : List Char},
    matchParamAt l = some (ty, nm, rest) → rest.length < l.length := by
  intro l ty nm rest h
  match l with
  | [] => simp [matchParamAt] at h
  | c :: cs =>
    simp only [matchParamAt] at h
    split at h
    case isTrue =>
      split at h
      case isTrue => exact absurd h (by simp)
      case isFalse =>
        split at h
        case h_1 rest2 heq2 =>
          split at h
          case isTrue => exact absurd h (by simp)
          case isFalse =>
            split at h
            case h_1 rest4 heq4 =>
              simp only [Option.some.injEq, Prod.mk.injEq] at h
              obtain ⟨-, -, hr⟩ := h
              subst hr
              have l2 : (rest2.dropWhile isWordChar).length ≤ rest2.length :=
                (List.dropWhile_suffix isWordChar).sublist.length_le
              have l1 : (cs.dropWhile isWordChar).length ≤ cs.length :=
                (List.dropWhile_suffix isWordChar).sublist.length_le
              have e2 : (rest2.dropWhile isWordChar).length = rest4.length + 1 := by
                rw [heq4]; simp
              have e1 : (cs.dropWhile isWordChar).length = rest2.length + 1 := by
                rw [heq2]; simp
              simp only [List.length_cons]
              omega
            case h_2 => exact absurd h (by simp)
        case h_2 => exact absurd h (by simp)
    case isFalse => exact absurd h (by simp)

/-- Model of `re.findall` for the pattern `<(\w+):(\w+)>`
(`hue_django/router.py` lines 41-52): scan left to right, attempting a
match at each position; on a match emit the capture groups and resume
scanning after the matched text, otherwise advance one character. -/
def findParams : List Char → List (List Char × List Char)
  | [] => []
  | c :: cs =>
    match h : matchParamAt (c :: cs) with
    | some (ty, nm, rest) => (ty, nm) :: findParams rest
    | none => findParams cs
termination_by l => l.length
decreasing_by
  · exact matchParamAt_length h
  · simp

/-- Model of the `PathParseResult` dataclass (`hue/router.py`). -/
structure PathParseResult where
  path : String
  param_names : List String
  deriving Repr, DecidableEq

/-- Model of the Django `Router._parse_path_params`
(`hue_django/router.py` lines 41-52): find all `<type:name>` patterns; the
parameter names are the second capture groups in match order; the path is
returned unchanged (Django's own URL dispatcher understands the
`<type:name>` syntax natively). -/
def parsePathParams (path : String) : PathParseResult :=
  ⟨path, (findParams path.toList).map (fun m => m.2.asString)⟩

/-- Model of the `Route` dataclass (`hue/router.py` lines 105-115). The
`view_func` field holds the wrapped view produced by `_wrap_view`. -/
structure Route where
  method : String
  path : String
  name : String
  view_func : WrappedView
  path_params : List String := []

/-- Model of the `Router` route table: the ordered list of registered
routes (the `routes` property returns a copy of the same list). -/
structure RouterState where
  routes : List Route := []

/-- The `Route` record constructed by the decorator body of
`Router._request`, named so that registration facts can be stated:
the handler name lowercased, the method uppercased, the normalized and
parameter-parsed path, and the wrapped view. `funcName` stands for the
Python attribute `view_func.__name__`. -/
def mkRoute (method path : String) (require_ajax : Bool) (funcName : String)
    (view_func : Handler) : Route :=
  { name := strLower funcName
    method := strUpper method
    path := (parsePathParams (normalizePath path)).path
    view_func := ⟨view_func, require_ajax⟩
    path_params := (parsePathParams (normalizePath path)).param_names }

/-- Model of the decorator body of `Router._request` (`hue/router.py` lines
362-379), specialized to the Django path syntax: normalize the path, parse
the path parameters, wrap the view function, append exactly one `Route`,
and hand the original (unwrapped) view function back to the decorator
chain. -/
def requestDecorator (router : RouterState) (method path : String)
    (require_ajax : Bool) (funcName : String) (view_func : Handler) :
    RouterState × Handler :=
  (⟨router.routes ++ [mkRoute method path require_ajax funcName view_func]⟩, view_func)

/-- Model of `_page = partialmethod(_request, "GET", require_ajax=False)`. -/
def _page (router : RouterState) (path funcName : String) (view_func : Handler) :
    RouterState × Handler :=
  requestDecorator router "GET" path false funcName view_func

/-- Model of `fragment_get = partialmethod(_request, "GET", require_ajax=True)`. -/
def fragment_get (router : RouterState) (path funcName : String) (view_func : Handler) :
    RouterState × Handler :=
  requestDecorator router "GET" path true funcName view_func

/-- Model of `fragment_post = partialmethod(_request, "POST", require_ajax=True)`. -/
def fragment_post (router : RouterState) (path funcName : String) (view_func : Handler) :
    RouterState × Handler :=
  requestDecorator router "POST" path true funcName view_func

/-- Model of `fragment_put = partialmethod(_request, "PUT", require_ajax=True)`. -/
def fragment_put (router : RouterState) (path funcName : String) (view_func : Handler) :
    RouterState × Handler :=
  requestDecorator router "PUT" path true funcName view_func

/-- Model of `fragment_delete = partialmethod(_request, "DELETE", require_ajax=True)`. -/
def fragment_delete (router : RouterState) (path funcName : String) (view_func : Handler) :
    RouterState × Handler :=
  requestDecorator router "DELETE" path true funcName view_func

/-- Model of `fragment_patch = partialmethod(_request, "PATCH", require_ajax=True)`. -/
def fragment_patch (router : RouterState) (path funcName : String) (view_func : Handler) :
    RouterState × Handler :=
  requestDecorator router "PATCH" path true funcName view_func

/-- Model of the index-route registration step of `HueView._get_urls`
(`hue_django/views.py` lines 246-252): `router._page("/")(cls.index)`
registers the class's `index` method (whose Python name is `index`) as a
non-AJAX page route at the bare base path. -/
def registerIndexRoute (router : RouterState) (index : Handler) : RouterState :=
  (_page router "/" "index" index).1

/-- Model of a Django `HttpResponse`: content and status code. -/
structure HttpResponse where
  content : String
  status : Nat
  deriving Repr, DecidableEq

/-- An exception propagating out of the Django dispatcher to the host
framework's own error machinery: the `TypeError` raised by tuple-unpacking
a non-iterable result, or an uncaught hue error. -/
inductive PyError where
  | typeError
  | hueError (e : HueError)
  deriving Repr, DecidableEq

/-- The unconditional tuple unpacking `html, status_code = view_func_result`
in `_handle_route`: a `(html, status_code)` pair unpacks, while a
`RawResponse` is not iterable and raises `TypeError`. -/
def tupleUnpack : WrappedViewResult → Except PyError (String × Nat)
  | .rendered html status => .ok (html, status)
  | .raw _ => .error .typeError

/-- Model of `_BaseView._handle_route` (`hue_django/views.py` lines
106-131): call the wrapped handler, unpack its `(html, status_code)` result
into an `HttpResponse`; an `AJAXRequiredError` is caught and turned into a
fixed 400 response; every other exception propagates. The filtering of
keyword arguments down to the route's path parameters is not modelled (the
model's handlers read the request directly). -/
def handleRoute (jsonLoads : String → Except String JsonRepr)
    (csrfToken : Request → String) (route : Route) (req : Request) :
    Except PyError HttpResponse :=
  match runWrappedView jsonLoads csrfToken route.view_func req with
  | .error .ajaxRequired => .ok ⟨"Bad Request", 400⟩
  | .error e => .error (.hueError e)
  | .ok result =>
    match tupleUnpack result with
    | .ok (html, status) => .ok ⟨html, status⟩
    | .error e => .error e

/-- One iteration of the grouping loop of
`_create_url_patterns_from_router` (`hue_django/views.py` lines 62-66): a
Python dict from path to list of routes, so a route is appended to an
existing entry when its path is already a key and otherwise starts a new
entry at the end (dicts preserve key insertion order). -/
def groupStep (acc : List (String × List Route)) (route : Route) :
    List (String × List Route) :=
  if acc.any (fun entry => entry.1 == route.path) then
    acc.map (fun entry =>
      if entry.1 == route.path then (entry.1, entry.2 ++ [route]) else entry)
  else acc ++ [(route.path, [route])]

/-- The grouping of routes by path performed by
`_create_url_patterns_from_router`. -/
def routesByPath (routes : List Route) : List (String × List Route) :=
  routes.foldl groupStep []

/-- Model of one Django URL pattern as produced by
`_create_url_patterns_from_router` (`hue_django/views.py` lines 69-102):
the path string, the grouped routes that the per-path dispatch function
closes over, and the pattern name (the first grouped route's name). -/
structure URLPattern where
  path : String
  pathRoutes : List Route
  name : String

/-- Model of `_BaseView._create_url_patterns_from_router`
(`hue_django/views.py` lines 52-104): one URL pattern per unique path,
named after the first route registered for that path. -/
def createUrlPatterns (router : RouterState) : List URLPattern :=
  (routesByPath router.routes).map
    (fun entry =>
      ⟨entry.1, entry.2,
        match entry.2 with
        | [] => ""
        | route :: _ => route.name⟩)

/-- Model of the per-path dispatch function `view_func` built by
`_create_url_patterns_from_router` (`hue_django/views.py` lines 71-91):
select the first grouped route, in registration order, whose method equals
the request method; return a fixed 405 response when none matches;
otherwise delegate to `_handle_route`, catching an escaping
`AJAXRequiredError` as a fixed 400 response. The fresh construction of a
view instance per call (`view_instance = cls()`) is operational and has no
observable counterpart in this pure model. -/
def dispatchPath (jsonLoads : String → Except String JsonRepr)
    (csrfToken : Request → String) (pathRoutes : List Route) (req : Request) :
    Except PyError HttpResponse :=
  match pathRoutes.find? (fun route => route.method == strUpper req.method) with
  | none => .ok ⟨"Method not allowed", 405⟩
  | some route =>
    match handleRoute jsonLoads csrfToken route req with
    | .error (.hueError .ajaxRequired) => .ok ⟨"Bad Request", 400⟩
    | r => r

/-!
Support for settling the path-parameter extraction claim: an abstract
grammar of path templates, rendered to the character strings the scanner
`findParams` consumes.
-/

/-- A path-template segment: either literal text or one Django-style
parameter `<type:name>`. -/
inductive Segment where
  | lit (cs : List Char)
  | param (ty nm : List Char)
  deriving Repr, DecidableEq

/-- The characters of one segment: a parameter renders in the Django
bracket syntax. -/
def renderSeg : Segment → List Char
  | .lit cs => cs
  | .param ty nm => '<' :: (ty ++ ':' :: (nm ++ '>' :: []))

/-- The characters of a whole template. -/
def renderTemplate (segs : List Segment) : List Char :=
  (segs.map renderSeg).flatten

/-- Well-formedness of a segment: literal text contains no opening bracket,
and a parameter's type and name are nonempty runs of word characters. -/
def segWF : Segment → Bool
  | .lit cs => !cs.contains '<'
  | .param ty nm => !ty.isEmpty && !nm.isEmpty && ty.all isWordChar && nm.all isWordChar

/-- The capture groups a segment contributes. -/
def segParam : Segment → Option (List Char × List Char)
  | .lit _ => none
  | .param ty nm => some (ty, nm)

theorem takeWhile_all_append_cons {α} (p : α → Bool) (l : List α) (b : α)
    (r : List α) (hl : ∀ c ∈ l, p c = true) (hb : p b = false) :
    (l ++ b :: r).takeWhile p = l := by
  induction l with
  | nil => simp [List.takeWhile_cons, hb]
  | cons a l ih =>
    have ha : p a = true := hl a (by simp)
    simp only [List.cons_append, List.takeWhile_cons, ha, if_true, List.cons.injEq,
      true_and]
    exact ih (fun c hc => hl c (by simp [hc]))

theorem dropWhile_all_append_cons {α} (p : α → Bool) (l : List α) (b : α)
    (r : List α) (hl : ∀ c ∈ l, p c = true) (hb : p b = false) :
    (l ++ b :: r).dropWhile p = b :: r := by
  induction l with
  | nil => simp [List.dropWhile_cons, hb]
  | cons a l ih =>
    have ha : p a = true := hl a (by simp)
    simp only [List.cons_append, List.dropWhile_cons, ha, if_true]
    exact ih (fun c hc => hl c (by simp [hc]))

/-- A successful match of the parameter pattern at a rendered parameter. -/
theorem matchParamAt_param (ty nm rest : List Char)
    (hty : ty ≠ []) (hnm : nm ≠ [])
    (hty2 : ∀ c ∈ ty, isWordChar c = true) (hnm2 : ∀ c ∈ nm, isWordChar c = true) :
    matchParamAt ('<' :: (ty ++ ':' :: (nm ++ '>' :: rest))) = some (ty, nm, rest) := by
  have hcolon : isWordChar ':' = false := by decide
  have hgt : isWordChar '>' = false := by decide
  simp only [matchParamAt, if_pos rfl,
    takeWhile_all_append_cons isWordChar ty ':' (nm ++ '>' :: rest) hty2 hcolon,
    dropWhile_all_append_cons isWordChar ty ':' (nm ++ '>' :: rest) hty2 hcolon,
    takeWhile_all_append_cons isWordChar nm '>' rest hnm2 hgt,
    dropWhile_all_append_cons isWordChar nm '>' rest hnm2 hgt,
    if_neg hty, if_neg hnm]
  simp

/-- No match can start at a character other than the opening bracket. -/
theorem matchParamAt_not_lt {c : Char} (h : c ≠ '<') (cs : List Char) :
    matchParamAt (c :: cs) = none := by
  simp [matchParamAt, h]

theorem findParams_cons_some {c : Char} {cs ty nm rest : List Char}
    (h : matchParamAt (c :: cs) = some (ty, nm, rest)) :
    findParams (c :: cs) = (ty, nm) :: findParams rest := by
  rw [findParams]
  split
  next ty2 nm2 rest2 heq => rw [h] at heq; cases heq; rfl
  next heq => rw [h] at heq; cases heq

theorem findParams_cons_none {c : Char} {cs : List Char}
    (h : matchParamAt (c :: cs) = none) :
    findParams (c :: cs) = findParams cs := by
  rw [findParams]
  split
  next ty2 nm2 rest2 heq => rw [h] at heq; cases heq
  next => rfl

/-- Scanning skips literal text containing no opening bracket. -/
theorem findParams_append_of_no_lt (l rest : List Char) (h : '<' ∉ l) :
    findParams (l ++ rest) = findParams rest := by
  induction l with
  | nil => rfl
  | cons c cs ih =>
    have hc : c ≠ '<' := by rintro rfl; exact h (by simp)
    have hcs : '<' ∉ cs := fun hmem => h (by simp [hmem])
    rw [List.cons_append, findParams_cons_none (matchParamAt_not_lt hc _), ih hcs]

/-- Scanning a rendered well-formed template yields exactly its parameters,
in left-to-right order. -/
theorem findParams_renderTemplate (segs : List Segment)
    (hwf : ∀ s ∈ segs, segWF s = true) :
    findParams (renderTemplate segs) = segs.filterMap segParam := by
  induction segs with
  | nil => simp [renderTemplate, findParams]
  | cons s segs ih =>
    have hs : segWF s = true := hwf s (by simp)
    have hrest : ∀ t ∈ segs, segWF t = true := fun t ht => hwf t (by simp [ht])
    match s with
    | .lit cs =>
      have hno : '<' ∉ cs := by
        simp only [segWF, Bool.not_eq_eq_eq_not, Bool.not_true] at hs
        intro hmem
        rw [List.contains_eq_any_beq] at hs
        simp only [List.any_eq_false, beq_iff_eq] at hs
        exact hs '<' hmem rfl
      simp only [renderTemplate, List.map_cons, List.flatten_cons, renderSeg]
      rw [findParams_append_of_no_lt cs _ hno]
      simpa [renderTemplate, segParam] using ih hrest
    | .param ty nm =>
      simp only [segWF, Bool.and_eq_true, List.all_eq_true, Bool.not_eq_eq_eq_not,
        Bool.not_true] at hs
      obtain ⟨⟨⟨hty0, hnm0⟩, hty2⟩, hnm2⟩ := hs
      have hty : ty ≠ [] := fun e => by simp [e] at hty0
      have hnm : nm ≠ [] := fun e => by simp [e] at hnm0
      simp only [renderTemplate, List.map_cons, List.flatten_cons, renderSeg]
      have hshape :
          ('<' :: (ty ++ ':' :: (nm ++ '>' :: []))) ++ (segs.map renderSeg).flatten
            = '<' :: (ty ++ ':' :: (nm ++ '>' :: (segs.map renderSeg).flatten)) := by
        simp
      rw [hshape, findParams_cons_some (matchParamAt_param ty nm _ hty hnm hty2 hnm2)]
      simpa [renderTemplate, segParam] using ih hrest

/-!
Support for settling the grouping and normalization claims.
-/

theorem dropWhile_head_not {α} (p : α → Bool) (l : List α) :
    ∀ a, (l.dropWhile p).head? = some a → p a = false := by
  induction l with
  | nil => intro a h; simp [List.dropWhile] at h
  | cons b l ih =>
    intro a h
    by_cases hb : p b
    · rw [List.dropWhile_cons, if_pos hb] at h
      exact ih a h
    · rw [List.dropWhile_cons, if_neg hb] at h
      simp only [List.head?_cons, Option.some.injEq] at h
      subst h
      exact Bool.eq_false_iff.mpr hb

/-- The invariant maintained by the grouping loop: keys are distinct, each
entry's routes are exactly the processed routes with that path in
registration order, and each processed route's path is a key. -/
def GroupInv (processed : List Route) (acc : List (String × List Route)) : Prop :=
  ((acc.map Prod.fst).Nodup)
  ∧ (∀ e ∈ acc, e.2 = processed.filter (fun rt => rt.path == e.1))
  ∧ (∀ rt ∈ processed, rt.path ∈ acc.map Prod.fst)

theorem map_fst_groupStep_update (acc : List (String × List Route)) (route : Route) :
    (acc.map (fun e =>
        if e.1 == route.path then (e.1, e.2 ++ [route]) else e)).map Prod.fst
      = acc.map Prod.fst := by
  rw [List.map_map]
  apply List.map_congr_left
  intro e _
  by_cases hc : e.1 == route.path <;> simp [Function.comp, hc]

theorem groupStep_inv {processed : List Route} {acc : List (String × List Route)}
    (h : GroupInv processed acc) (route : Route) :
    GroupInv (processed ++ [route]) (groupStep acc route) := by
  obtain ⟨h1, h2, h3⟩ := h
  unfold groupStep
  by_cases hmem : acc.any (fun entry => entry.1 == route.path)
  · rw [if_pos hmem]
    refine ⟨?_, ?_, ?_⟩
    · rw [map_fst_groupStep_update]; exact h1
    · intro e he
      rw [List.mem_map] at he
      obtain ⟨e0, he0, rfl⟩ := he
      by_cases hc : e0.1 == route.path
      · rw [if_pos hc]
        have hc2 : (route.path == e0.1) = true := by
          rw [beq_iff_eq] at hc ⊢; exact hc.symm
        dsimp only
        simp only [List.filter_append, List.filter_cons, hc2, if_true,
          List.filter_nil]
        rw [← h2 e0 he0]
      · rw [if_neg hc]
        have hc2 : (route.path == e0.1) = false := by
          rw [beq_eq_false_iff_ne]
          intro hEq
          rw [beq_iff_eq] at hc
          exact hc hEq.symm
        simp only [List.filter_append, List.filter_cons, hc2, Bool.false_eq_true,
          if_false, List.filter_nil, List.append_nil]
        exact h2 e0 he0
    · intro rt hrt
      rw [map_fst_groupStep_update]
      rcases List.mem_append.mp hrt with hold | hnew
      · exact h3 rt hold
      · rw [List.mem_singleton] at hnew
        subst hnew
        rw [List.any_eq_true] at hmem
        obtain ⟨e, he, hc⟩ := hmem
        rw [beq_iff_eq] at hc
        rw [← hc]
        exact List.mem_map.mpr ⟨e, he, rfl⟩
  · rw [if_neg hmem]
    rw [List.any_eq_true] at hmem
    push_neg at hmem
    have hnotkey : route.path ∉ acc.map Prod.fst := by
      intro hk
      rw [List.mem_map] at hk
      obtain ⟨e, he, hfst⟩ := hk
      exact absurd (beq_iff_eq.mpr hfst) (by simpa using hmem e he)
    refine ⟨?_, ?_, ?_⟩
    · rw [List.map_append]
      simp only [List.map_cons, List.map_nil]
      rw [List.nodup_append]
      refine ⟨h1, List.nodup_singleton _, ?_⟩
      intro a ha hb
      rw [List.mem_singleton] at hb
      subst hb
      exact hnotkey ha
    · intro e he
      rcases List.mem_append.mp he with hin | hnew
      · have hne : (route.path == e.1) = false := by
          rw [beq_eq_false_iff_ne]
          intro hEq
          refine hnotkey ?_
          rw [hEq]
          exact List.mem_map.mpr ⟨e, hin, rfl⟩
        simp only [List.filter_append, List.filter_cons, hne, Bool.false_eq_true,
          if_false, List.filter_nil, List.append_nil]
        exact h2 e hin
      · rw [List.mem_singleton] at hnew
        subst hnew
        dsimp only
        have hfil : processed.filter (fun rt => rt.path == route.path) = [] := by
          rw [List.filter_eq_nil_iff]
          intro rt hrt hbeq
          rw [beq_iff_eq] at hbeq
          refine hnotkey ?_
          rw [← hbeq]
          exact h3 rt hrt
        simp only [List.filter_append, List.filter_cons, beq_self_eq_true, if_true,
          List.filter_nil, hfil, List.nil_append]
    · intro rt hrt
      rw [List.map_append]
      simp only [List.map_cons, List.map_nil]
      rcases List.mem_append.mp hrt with hold | hnew
      · exact List.mem_append.mpr (Or.inl (h3 rt hold))
      · rw [List.mem_singleton] at hnew
        subst hnew
        exact List.mem_append.mpr (Or.inr (by simp))

theorem foldl_groupStep_inv (rs : List Route) :
    ∀ (processed : List Route) (acc : List (String × List Route)),
      GroupInv processed acc → GroupInv (processed ++ rs) (rs.foldl groupStep acc) := by
  induction rs with
  | nil => intro processed acc h; simpa using h
  | cons r rs ih =>
    intro processed acc h
    have h2 := groupStep_inv h r
    have h3 := ih (processed ++ [r]) (groupStep acc r) h2
    simpa [List.append_assoc] using h3

theorem routesByPath_inv (rs : List Route) : GroupInv rs (routesByPath rs) := by
  have h0 : GroupInv [] [] := by
    refine ⟨List.nodup_nil, ?_, ?_⟩ <;> intro x hx <;> cases hx
  have h := foldl_groupStep_inv rs [] [] h0
  simpa [routesByPath] using h

/-- A body parse never raises the AJAX-required error: every error it
produces is a `BodyValidationError`. -/
theorem parseBody_ne_ajax (jsonLoads : String → Except String JsonRepr)
    (validate : BodyTypeSpec) (req : Request) :
    parseBody jsonLoads validate req ≠ Except.error HueError.ajaxRequired := by
  unfold parseBody
  by_cases hct : containsSubstr req.content_type "application/json" = true
  · rw [if_pos hct]
    rcases hdec : (if req.body.isEmpty then Except.ok JsonRepr.emptyObj
        else jsonLoads req.body) with e | d
    · simp
    · rcases hval : validate (PyData.fromJson d) with errs | v <;> simp [hval]
  · rw [if_neg hct]
    rcases hval : validate (PyData.fromForm req.form_data) with errs | v <;> simp [hval]

/-- Unfolding of the dispatch function when a route matches the method. -/
theorem dispatchPath_some {jsonLoads : String → Except String JsonRepr}
    {csrfToken : Request → String} {pathRoutes : List Route} {req : Request}
    {route : Route}
    (hfind : pathRoutes.find? (fun rt => rt.method == strUpper req.method)
      = some route) :
    dispatchPath jsonLoads csrfToken pathRoutes req
      = (match handleRoute jsonLoads csrfToken route req with
         | .error (.hueError .ajaxRequired) => Except.ok ⟨"Bad Request", 400⟩
         | r => r) := by
  unfold dispatchPath
  rw [hfind]

/-- A wrapped view returning a rendered pair makes `_handle_route` return
the corresponding response. -/
theorem handleRoute_ok_rendered {jsonLoads : String → Except String JsonRepr}
    {csrfToken : Request → String} {route : Route} {req : Request}
    {html : String} {status : Nat}
    (hrun : runWrappedView jsonLoads csrfToken route.view_func req
      = .ok (.rendered html status)) :
    handleRoute jsonLoads csrfToken route req = .ok ⟨html, status⟩ := by
  unfold handleRoute
  rw [hrun]
  rfl

/-- A wrapped view returning a raw pass-through makes `_handle_route` raise
a `TypeError` at the tuple unpacking. -/
theorem handleRoute_ok_raw {jsonLoads : String → Except String JsonRepr}
    {csrfToken : Request → String} {route : Route} {req : Request}
    {r : RawResponse}
    (hrun : runWrappedView jsonLoads csrfToken route.view_func req
      = .ok (.raw r)) :
    handleRoute jsonLoads csrfToken route req = .error .typeError := by
  unfold handleRoute
  rw [hrun]
  rfl

/-!
Sample concrete values used by the witness theorems.
-/

/-- A sample JSON decoder that accepts every body. -/
def jl0 : String → Except String JsonRepr := fun s => .ok (.value s)

/-- A sample JSON decoder that rejects every body. -/
def jlerr : String → Except String JsonRepr := fun _ => .error "syntax error"

/-- A sample CSRF hook. -/
def ct0 : Request → String := fun _ => "token"

/-- A sample validator that rejects every datum with one field error. -/
def validate0 : BodyTypeSpec := fun _ => .error [⟨"missing", "Field required"⟩]

/-- A plain GET request with an empty dict-like header container. -/
def req0 : Request := {}

/-- A request whose header container is missing or not dict-like. -/
def reqNone : Request := { headers := none }

/-- A JSON POST request with a malformed body. -/
def reqJson : Request :=
  { content_type := "application/json", body := "notjson", method := "POST" }

/-- A sample handler with no body parameter returning a plain component. -/
def handler0 : Handler := ⟨none, fun _ _ _ => .other ⟨false, .text "ok"⟩⟩

/-- A sample handler returning a raw framework response (an object exposing
a `status_code` attribute). -/
def handlerRaw : Handler := ⟨none, fun _ _ _ => .other ⟨true, .text "redirect"⟩⟩

/-- A sample AJAX-required route over `handler0`. -/
def route0 : Route :=
  { method := "GET", path := "", name := "h", view_func := ⟨handler0, true⟩ }

/-- A sample non-AJAX route over `handler0`. -/
def route1 : Route :=
  { method := "GET", path := "", name := "h", view_func := ⟨handler0, false⟩ }

/-- A sample non-AJAX route over `handlerRaw`. -/
def routeRaw : Route :=
  { method := "GET", path := "", name := "r", view_func := ⟨handlerRaw, false⟩ }

/-!
The claims.
-/

/-- C1 (amended): the view wrapper interprets the awaited handler result by
exactly this case analysis: a result exposing a `status_code` attribute
that is not a `HueResponse` is returned as a raw pass-through without
rendering; a `HueResponse` contributes its `status_code` field (200 when
unset) and renders as the inner component wrapped in a div whose id equals
the target when the target is present and non-empty, and as the inner
component unwrapped when the target is absent or the empty string; any
other result is rendered as the render-unit itself with status 200. -/
theorem c1_result_interpretation (comp c : Html) (r : HueResponse) (s : String)
    (t : Option String) (n : Nat) :
    interpretResult (ViewResult.other ⟨true, comp⟩) = WrappedViewResult.raw ⟨⟨true, comp⟩⟩
    ∧ interpretResult (ViewResult.other ⟨false, comp⟩)
        = WrappedViewResult.rendered (renderHtml comp) 200
    ∧ interpretResult (ViewResult.hue r)
        = WrappedViewResult.rendered (renderHtml r.htmy) r.status_code
    ∧ HueResponse.htmy ⟨c, none, n⟩ = c
    ∧ HueResponse.htmy ⟨c, some "", n⟩ = c
    ∧ (s.isEmpty = false → HueResponse.htmy ⟨c, some s, n⟩ = Html.div c (some s))
    ∧ ({ component := c, target := t } : HueResponse).status_code = 200 := by
  refine ⟨rfl, rfl, rfl, rfl, rfl, ?_, rfl⟩
  intro hs
  simp [HueResponse.htmy, optStrTruthy, hs]

/-- Witness for the result-interpretation theorem at concrete inputs: a
non-empty target wraps the component in a div tagged with it. -/
theorem c1_result_interpretation_witness :
    ("x" : String).isEmpty = false
    ∧ HueResponse.htmy ⟨Html.text "t", some "x", 200⟩
        = Html.div (Html.text "t") (some "x") :=
  ⟨rfl, (c1_result_interpretation (Html.text "a") (Html.text "t")
      ⟨Html.text "b", none, 200⟩ "x" none 200).2.2.2.2.2.1 rfl⟩

/-- C1 counterexample: for a structured response whose target is the empty
string — present, but falsy in Python — the code renders the component
unwrapped rather than wrapped in a div tagged with the target, against the
claim's present/absent case split (`specHtmy`). -/
theorem c1_counterexample :
    HueResponse.htmy ⟨Html.text "x", some "", 200⟩ = Html.text "x"
    ∧ HueResponse.htmy ⟨Html.text "x", some "", 200⟩
        ≠ specHtmy ⟨Html.text "x", some "", 200⟩ := by
  refine ⟨rfl, ?_⟩
  decide

/-- C2: for a wrapped view with the AJAX requirement, a request the
classifier rejects makes the wrapper raise `AJAXRequiredError`: the outcome
is the error for every JSON decoder, CSRF hook and handler, so the handler
is never consulted and no body parsing or context construction contributes
to the outcome; and the Django dispatcher translates the error into a fixed
HTTP 400 response. -/
theorem c2_ajax_required (jsonLoads : String → Except String JsonRepr)
    (csrfToken : Request → String) (w : WrappedView) (route : Route)
    (req : Request) (h1 : w.require_ajax = true) (h2 : isAjaxRequest req = false)
    (h3 : route.view_func = w) :
    runWrappedView jsonLoads csrfToken w req = .error .ajaxRequired
    ∧ handleRoute jsonLoads csrfToken route req = .ok ⟨"Bad Request", 400⟩ := by
  have hrun : runWrappedView jsonLoads csrfToken w req = .error .ajaxRequired := by
    unfold runWrappedView
    rw [h1, h2]
    simp
  refine ⟨hrun, ?_⟩
  unfold handleRoute
  rw [h3, hrun]

/-- Witness for the AJAX-requirement theorem: a plain request with no AJAX
headers against an AJAX-required route yields the 400 translation. -/
theorem c2_ajax_required_witness :
    (⟨handler0, true⟩ : WrappedView).require_ajax = true
    ∧ isAjaxRequest req0 = false
    ∧ handleRoute jl0 ct0 route0 req0 = .ok ⟨"Bad Request", 400⟩ :=
  ⟨rfl, rfl, (c2_ajax_required jl0 ct0 ⟨handler0, true⟩ route0 req0 rfl rfl rfl).2⟩

/-- C3: body parsing of a declared typed body parameter: a content type
containing `application/json` decodes the raw body as JSON with an empty
body decoding to the empty object, a JSON syntax error raises
`BodyValidationError` with a `json_invalid` entry; any other content type
takes the form data; the decoded datum is validated against the declared
type and a validation failure raises `BodyValidationError` carrying the
validation library's full error list; and a parse failure propagates out of
the wrapped view. -/
theorem c3_body_validation (jsonLoads : String → Except String JsonRepr)
    (validate : BodyTypeSpec) (req : Request) (e : String) (j : JsonRepr)
    (errs : List FieldError) (v : BodyValue) (csrfToken : Request → String)
    (w : WrappedView) (err : HueError) :
    (containsSubstr req.content_type "application/json" = true →
      req.body.isEmpty = true →
      validate (PyData.fromJson JsonRepr.emptyObj) = .ok v →
      parseBody jsonLoads validate req = .ok v)
    ∧ (containsSubstr req.content_type "application/json" = true →
        req.body.isEmpty = true →
        validate (PyData.fromJson JsonRepr.emptyObj) = .error errs →
        parseBody jsonLoads validate req = .error (.bodyValidation errs))
    ∧ (containsSubstr req.content_type "application/json" = true →
        req.body.isEmpty = false →
        jsonLoads req.body = .error e →
        parseBody jsonLoads validate req
          = .error (.bodyValidation [⟨"json_invalid", e⟩]))
    ∧ (containsSubstr req.content_type "application/json" = true →
        req.body.isEmpty = false →
        jsonLoads req.body = .ok j →
        validate (PyData.fromJson j) = .ok v →
        parseBody jsonLoads validate req = .ok v)
    ∧ (containsSubstr req.content_type "application/json" = true →
        req.body.isEmpty = false →
        jsonLoads req.body = .ok j →
        validate (PyData.fromJson j) = .error errs →
        parseBody jsonLoads validate req = .error (.bodyValidation errs))
    ∧ (containsSubstr req.content_type "application/json" = false →
        validate (PyData.fromForm req.form_data) = .ok v →
        parseBody jsonLoads validate req = .ok v)
    ∧ (containsSubstr req.content_type "application/json" = false →
        validate (PyData.fromForm req.form_data) = .error errs →
        parseBody jsonLoads validate req = .error (.bodyValidation errs))
    ∧ (w.view_func.body_type = some validate →
        (w.require_ajax && !isAjaxRequest req) = false →
        parseBody jsonLoads validate req = .error err →
        runWrappedView jsonLoads csrfToken w req = .error err) := by
  refine ⟨?_, ?_, ?_, ?_, ?_, ?_, ?_, ?_⟩
  · intro hct hempty hval
    simp [parseBody, hct, hempty, hval]
  · intro hct hempty hval
    simp [parseBody, hct, hempty, hval]
  · intro hct hempty hdec
    simp [parseBody, hct, hempty, hdec]
  · intro hct hempty hdec hval
    simp [parseBody, hct, hempty, hdec, hval]
  · intro hct hempty hdec hval
    simp [parseBody, hct, hempty, hdec, hval]
  · intro hct hval
    simp [parseBody, hct, hval]
  · intro hct hval
    simp [parseBody, hct, hval]
  · intro hbt hcond hp
    unfold runWrappedView
    rw [hcond, hbt]
    simp [hp]

/-- Witness for the body-validation theorem: a malformed JSON body yields
the `json_invalid` error entry. -/
theorem c3_body_validation_witness :
    containsSubstr reqJson.content_type "application/json" = true
    ∧ reqJson.body.isEmpty = false
    ∧ jlerr reqJson.body = .error "syntax error"
    ∧ parseBody jlerr validate0 reqJson
        = .error (.bodyValidation [⟨"json_invalid", "syntax error"⟩]) := by
  refine ⟨by decide, rfl, rfl, ?_⟩
  exact (c3_body_validation jlerr validate0 reqJson "syntax error" JsonRepr.emptyObj
    [] ⟨""⟩ ct0 ⟨handler0, true⟩ HueError.ajaxRequired).2.2.1 (by decide) rfl rfl

/-- C4: path normalization is idempotent, satisfies the spec's examples
(all leading slashes stripped, trailing slash preserved, the root path
becoming empty), and registration stores every route's path in normalized
form with no leading slash (stated as preservation of the invariant by one
registration step, from any router state already satisfying it). -/
theorem c4_normalization (p method path funcName : String) (ra : Bool)
    (h : Handler) (router : RouterState)
    (hinv : ∀ rt ∈ router.routes, rt.path.toList.head? ≠ some '/') :
    normalizePath (normalizePath p) = normalizePath p
    ∧ normalizePath "///test" = "test"
    ∧ normalizePath "/test/" = "test/"
    ∧ normalizePath "/" = ""
    ∧ (mkRoute method path ra funcName h).path = normalizePath path
    ∧ (∀ rt ∈ (requestDecorator router method path ra funcName h).1.routes,
        rt.path.toList.head? ≠ some '/') := by
  refine ⟨?_, rfl, rfl, rfl, rfl, ?_⟩
  · show ((p.toList.dropWhile (fun c => c == '/')).dropWhile (fun c => c == '/')).asString
      = (p.toList.dropWhile (fun c => c == '/')).asString
    rw [List.dropWhile_idempotent]
  · intro rt hrt
    have hrt2 : rt ∈ router.routes ++ [mkRoute method path ra funcName h] := hrt
    rcases List.mem_append.mp hrt2 with hold | hnew
    · exact hinv rt hold
    · rw [List.mem_singleton] at hnew
      subst hnew
      intro hhead
      have hfalse := dropWhile_head_not (fun c => c == '/') path.toList '/' hhead
      simp at hfalse

/-- Witness for the normalization theorem at concrete inputs, from the
empty router state. -/
theorem c4_normalization_witness :
    normalizePath (normalizePath "//x") = normalizePath "//x" :=
  (c4_normalization "//x" "GET" "y/" "f" false handler0 ⟨[]⟩
    (fun rt hrt => absurd hrt (List.not_mem_nil rt))).1

/-- C5: the URL binder groups all routes sharing an identical path into a
single URL entry (keys are distinct, each entry holds exactly the routes
with that path in registration order, and every registered route's path has
an entry); the per-path dispatch function selects the first route in
registration order whose method equals the request method, returns a 405
method-not-allowed response when none matches, and otherwise returns a
response carrying the wrapped handler's rendered output and status code. -/
theorem c5_url_binding (router : RouterState) (pathRoutes : List Route)
    (req : Request) (jsonLoads : String → Except String JsonRepr)
    (csrfToken : Request → String) (route : Route) (html : String) (status : Nat) :
    ((routesByPath router.routes).map Prod.fst).Nodup
    ∧ (∀ e ∈ routesByPath router.routes,
        e.2 = router.routes.filter (fun rt => rt.path == e.1))
    ∧ (∀ rt ∈ router.routes, rt.path ∈ (routesByPath router.routes).map Prod.fst)
    ∧ (pathRoutes.find? (fun rt => rt.method == strUpper req.method) = none →
        dispatchPath jsonLoads csrfToken pathRoutes req
          = .ok ⟨"Method not allowed", 405⟩)
    ∧ (pathRoutes.find? (fun rt => rt.method == strUpper req.method) = some route →
        runWrappedView jsonLoads csrfToken route.view_func req
          = .ok (.rendered html status) →
        dispatchPath jsonLoads csrfToken pathRoutes req = .ok ⟨html, status⟩) := by
  obtain ⟨h1, h2, h3⟩ := routesByPath_inv router.routes
  refine ⟨h1, h2, h3, ?_, ?_⟩
  · intro hfind
    unfold dispatchPath
    rw [hfind]
  · intro hfind hrun
    rw [dispatchPath_some hfind, handleRoute_ok_rendered hrun]

/-- Witness for the URL-binding theorem: an empty candidate list yields
405, and a matching GET route yields the rendered response. -/
theorem c5_url_binding_witness :
    dispatchPath jl0 ct0 [] req0 = .ok ⟨"Method not allowed", 405⟩
    ∧ dispatchPath jl0 ct0 [route1] req0 = .ok ⟨"ok", 200⟩ :=
  ⟨(c5_url_binding ⟨[]⟩ [] req0 jl0 ct0 route1 "ok" 200).2.2.2.1 rfl,
   (c5_url_binding ⟨[]⟩ [route1] req0 jl0 ct0 route1 "ok" 200).2.2.2.2 rfl rfl⟩

/-- C6: decorator registration returns the original unwrapped handler
unchanged, appends exactly one route record per call preserving insertion
order, and never merges or deduplicates: registering the same path and
method twice appends two route entries. -/
theorem c6_decorator_registration (router : RouterState) (method path : String)
    (ra : Bool) (funcName : String) (h : Handler) :
    (requestDecorator router method path ra funcName h).2 = h
    ∧ (requestDecorator router method path ra funcName h).1.routes
        = router.routes ++ [mkRoute method path ra funcName h]
    ∧ ((requestDecorator router method path ra funcName h).1.routes).length
        = router.routes.length + 1
    ∧ ((requestDecorator (requestDecorator router method path ra funcName h).1
          method path ra funcName h).1).routes
        = router.routes ++ [mkRoute method path ra funcName h,
            mkRoute method path ra funcName h] := by
  refine ⟨rfl, rfl, by simp [requestDecorator], by simp [requestDecorator]⟩

/-- C7: for every well-formed path template in the Django bracket syntax,
the parser extracts exactly the template's parameter names in left-to-right
order (hence as many names as parameters), and returns the path unchanged. -/
theorem c7_path_params (segs : List Segment) (hwf : ∀ s ∈ segs, segWF s = true) :
    (parsePathParams (renderTemplate segs).asString).param_names
      = (segs.filterMap segParam).map (fun m => m.2.asString)
    ∧ (parsePathParams (renderTemplate segs).asString).path
      = (renderTemplate segs).asString
    ∧ (parsePathParams (renderTemplate segs).asString).param_names.length
      = (segs.filterMap segParam).length := by
  have hfind : findParams ((renderTemplate segs).asString).toList
      = segs.filterMap segParam := by
    show findParams (renderTemplate segs) = segs.filterMap segParam
    exact findParams_renderTemplate segs hwf
  refine ⟨?_, rfl, ?_⟩
  · show (findParams ((renderTemplate segs).asString).toList).map (fun m => m.2.asString)
      = (segs.filterMap segParam).map (fun m => m.2.asString)
    rw [hfind]
  · show ((findParams ((renderTemplate segs).asString).toList).map
        (fun m => m.2.asString)).length = (segs.filterMap segParam).length
    rw [hfind, List.length_map]

/-- The spec's example template `comments/` followed by an int parameter. -/
def segsEx : List Segment :=
  [Segment.lit ("comments/".toList),
   Segment.param ("int".toList) ("comment_id".toList),
   Segment.lit ("/".toList)]

/-- Witness for the path-parameter theorem on the template
`comments/int:comment_id/` written in bracket syntax. -/
theorem c7_path_params_witness :
    (∀ s ∈ segsEx, segWF s = true)
    ∧ (parsePathParams (renderTemplate segsEx).asString).param_names
        = ["comment_id"] := by
  have hwf : ∀ s ∈ segsEx, segWF s = true := by decide
  refine ⟨hwf, ?_⟩
  rw [(c7_path_params segsEx hwf).1]
  rfl

/-- C8: the index route is registered at the bare base path with the AJAX
requirement off, while every fragment decorator registers with it on; a
wrapped view without the AJAX requirement never raises `AJAXRequiredError`
on any request. -/
theorem c8_index_route_non_ajax (router : RouterState) (index h : Handler)
    (path funcName : String) (jsonLoads : String → Except String JsonRepr)
    (csrfToken : Request → String) (req : Request) (method : String) :
    (registerIndexRoute router index).routes
      = router.routes ++ [mkRoute "GET" "/" false "index" index]
    ∧ (mkRoute "GET" "/" false "index" index).view_func.require_ajax = false
    ∧ (mkRoute "GET" "/" false "index" index).path = ""
    ∧ (fragment_get router path funcName h).1.routes
        = router.routes ++ [mkRoute "GET" path true funcName h]
    ∧ (fragment_post router path funcName h).1.routes
        = router.routes ++ [mkRoute "POST" path true funcName h]
    ∧ (fragment_put router path funcName h).1.routes
        = router.routes ++ [mkRoute "PUT" path true funcName h]
    ∧ (fragment_delete router path funcName h).1.routes
        = router.routes ++ [mkRoute "DELETE" path true funcName h]
    ∧ (fragment_patch router path funcName h).1.routes
        = router.routes ++ [mkRoute "PATCH" path true funcName h]
    ∧ (mkRoute method path true funcName h).view_func.require_ajax = true
    ∧ (∀ w : WrappedView, w.require_ajax = false →
        runWrappedView jsonLoads csrfToken w req ≠ .error .ajaxRequired) := by
  refine ⟨rfl, rfl, rfl, rfl, rfl, rfl, rfl, rfl, rfl, ?_⟩
  intro w hw
  unfold runWrappedView
  rw [hw]
  simp only [Bool.false_and, Bool.false_eq_true, if_false]
  rcases hbt : w.view_func.body_type with _ | bt
  · simp
  · rcases hp : parseBody jsonLoads bt req with e | v
    · have hne : e ≠ HueError.ajaxRequired := fun hE =>
        parseBody_ne_ajax jsonLoads bt req (by rw [hp, hE])
      simp [hp, hne]
    · simp [hp]

/-- Witness for the index-route theorem: a non-AJAX wrapped view on a plain
request does not raise the AJAX-required error. -/
theorem c8_index_route_non_ajax_witness :
    (⟨handler0, false⟩ : WrappedView).require_ajax = false
    ∧ runWrappedView jl0 ct0 ⟨handler0, false⟩ req0
        ≠ Except.error HueError.ajaxRequired :=
  ⟨rfl, (c8_index_route_non_ajax ⟨[]⟩ handler0 handler0 "p" "f" jl0 ct0 req0
      "GET").2.2.2.2.2.2.2.2.2 ⟨handler0, false⟩ rfl⟩

/-- C9: the classifier returns true exactly when the dict-like header
container maps `X-Requested-With` to `XMLHttpRequest` or `X-Alpine-Request`
to the string `true`; a missing or non-dict-like header container, or an
empty one, yields false. The classifier is a pure function of the request
by construction. -/
theorem c9_ajax_classifier (req : Request) :
    (isAjaxRequest req = true ↔
      ∃ headers, req.headers = some headers
        ∧ (headers.lookup "X-Requested-With" = some "XMLHttpRequest"
           ∨ headers.lookup "X-Alpine-Request" = some "true"))
    ∧ (req.headers = none → isAjaxRequest req = false)
    ∧ (req.headers = some [] → isAjaxRequest req = false) := by
  refine ⟨⟨?_, ?_⟩, ?_, ?_⟩
  · intro h
    unfold isAjaxRequest at h
    rcases hh : req.headers with _ | headers
    · rw [hh] at h; cases h
    · rw [hh] at h
      refine ⟨headers, rfl, ?_⟩
      simpa using h
  · rintro ⟨headers, hh, hor⟩
    unfold isAjaxRequest
    rw [hh]
    rcases hor with h1 | h1 <;> simp [h1]
  · intro hh
    unfold isAjaxRequest
    rw [hh]
  · intro hh
    unfold isAjaxRequest
    rw [hh]
    rfl

/-- Witness for the classifier theorem: a request without a dict-like
header container is classified as non-AJAX. -/
theorem c9_ajax_classifier_witness : isAjaxRequest reqNone = false :=
  (c9_ajax_classifier reqNone).2.1 rfl

/-- C10: the Django dispatcher converts only tuple results into HTTP
responses: when the wrapped view returns a `RawResponse` pass-through, the
unconditional tuple unpacking in `_handle_route` raises a `TypeError`,
which is not caught and propagates through the per-path dispatch function
to the host framework, so the raw response is never returned. -/
theorem c10_raw_passthrough_type_error (jsonLoads : String → Except String JsonRepr)
    (csrfToken : Request → String) (route : Route) (req : Request)
    (v : OtherValue) (pathRoutes : List Route)
    (hrun : runWrappedView jsonLoads csrfToken route.view_func req
      = .ok (.raw ⟨v⟩)) :
    handleRoute jsonLoads csrfToken route req = .error .typeError
    ∧ (pathRoutes.find? (fun rt => rt.method == strUpper req.method) = some route →
        dispatchPath jsonLoads csrfToken pathRoutes req = .error .typeError) := by
  have h1 : handleRoute jsonLoads csrfToken route req = .error .typeError :=
    handleRoute_ok_raw hrun
  refine ⟨h1, fun hfind => ?_⟩
  rw [dispatchPath_some hfind, h1]

/-- Witness for the raw-pass-through theorem: a handler returning a raw
framework response makes the dispatcher fail with a `TypeError`. -/
theorem c10_raw_passthrough_type_error_witness :
    runWrappedView jl0 ct0 routeRaw.view_func req0
      = .ok (.raw ⟨⟨true, Html.text "redirect"⟩⟩)
    ∧ handleRoute jl0 ct0 routeRaw req0 = .error .typeError :=
  ⟨rfl, (c10_raw_passthrough_type_error jl0 ct0 routeRaw req0
      ⟨true, Html.text "redirect"⟩ [] rfl).1⟩

end Hue
